import Mathlib

/-!
# b64: the host-binding shim `src/init.c`

A shallow embedding of the C glue between the host runtime (R) and the native
base64 library, and the properties of its tagged-pointer result convention,
its wrappers and its registration table.

Conventions of the embedding

* A `SEXP` / `uintptr_t` value is a natural number; `w` is the width of a
  pointer in bits, and a w-bit word is a number below `2 ^ w`.  The casts
  between `SEXP` and `uintptr_t` keep the value.
* The host's accessors used by the file (`TYPEOF`, `CHAR`, `R_NilValue`, the
  type code `CHARSXP`) come from the host's headers and are parameters,
  gathered in `Host`.
* `Rf_errorcall` and `R_ContinueUnwind` do not return to their caller; a call
  of `handle_result` therefore ends in one of three ways, recorded by
  `Outcome`.
-/

namespace B64

/-! ## The host interface -/

/-- The part of the host runtime that `init.c` reads: the type code stored in
the object a pointer addresses, the bytes of a character object, the pointer
`R_NilValue`, and the type code `CHARSXP`.  The accessors are total: a word
that `handle_result` untags is taken to address an object of the host, which is
the native side's obligation under the convention. -/
structure Host where
  TYPEOF : Nat → Nat
  CHAR : Nat → String
  R_NilValue : Nat
  CHARSXP : Nat

/-- How a call of `handle_result` (or of a wrapper) ends. -/
inductive Outcome where
  /-- The statement `return (SEXP)res;` was reached. -/
  | returned (value : Nat)
  /-- The call `Rf_errorcall(call, format, args...)` was made. -/
  | errorcall (call : Nat) (format : String) (args : List String)
  /-- The call `R_ContinueUnwind(token)` was made. -/
  | continueUnwind (token : Nat)
  deriving DecidableEq, Repr

/-- Rendering of a printf-style format by the host's C library, for the two
directives a message format can hold here: `%s` inserts the next argument as
it is, `%%` gives one percent sign; any other character is copied. -/
def renderFormat : List Char → List String → List Char
  | '%' :: 's' :: rest, a :: args => a.data ++ renderFormat rest args
  | '%' :: 's' :: rest, [] => renderFormat rest []
  | '%' :: '%' :: rest, args => '%' :: renderFormat rest args
  | c :: rest, args => c :: renderFormat rest args
  | [], _ => []

/-- The message of the host error an outcome raises, when it raises one. -/
def Outcome.message : Outcome → Option String
  | .errorcall _ format args => some ⟨renderFormat format.data args⟩
  | _ => none

/-! ## `handle_result` -/

/-- Source: `static uintptr_t TAGGED_POINTER_MASK = (uintptr_t)1;` -/
def TAGGED_POINTER_MASK (w : Nat) : Nat := 1 % 2 ^ w

/-- The operator `~` on a w-bit unsigned word. -/
def complement (w x : Nat) : Nat := 2 ^ w - 1 - x % 2 ^ w

/-- The expression `res & ~TAGGED_POINTER_MASK` of `handle_result`. -/
def res_aligned (w res : Nat) : Nat :=
  Nat.land res (complement w (TAGGED_POINTER_MASK w))

/-- Source: `SEXP handle_result(SEXP res_)` -/
def handle_result (w : Nat) (R : Host) (res_ : Nat) : Outcome :=
  let res := res_
  if Nat.land res (TAGGED_POINTER_MASK w) = 1 then
    if R.TYPEOF (res_aligned w res) = R.CHARSXP then
      Outcome.errorcall R.R_NilValue "%s" [R.CHAR (res_aligned w res)]
    else
      Outcome.continueUnwind (res_aligned w res)
  else
    Outcome.returned res

/-! ## The native functions and their wrappers -/

/-- The functions declared in `rust/api.h`, which the wrappers call.  Each takes
the host state and its arguments and gives its result word and the host state
it leaves. -/
structure Native where
  savvy_alphabet___ffi : Host → Nat → Nat × Host
  savvy_b64_chunk__ffi : Host → Nat → Nat → Nat × Host
  savvy_b64_wrap__ffi : Host → Nat → Nat → Nat × Host
  savvy_decode___ffi : Host → Nat → Nat → Nat × Host
  savvy_decode_as_string___ffi : Host → Nat → Nat → Nat → Nat × Host
  savvy_decode_file___ffi : Host → Nat → Nat → Nat × Host
  savvy_decode_vectorized___ffi : Host → Nat → Nat → Nat × Host
  savvy_encode___ffi : Host → Nat → Nat → Nat × Host
  savvy_encode_file___ffi : Host → Nat → Nat → Nat × Host
  savvy_encode_vectorized___ffi : Host → Nat → Nat → Nat × Host
  savvy_engine___ffi : Host → Nat → Nat × Host
  savvy_get_alphabet___ffi : Host → Nat → Nat × Host
  savvy_new_alphabet___ffi : Host → Nat → Nat × Host
  savvy_new_config___ffi : Host → Nat → Nat → Nat → Nat × Host
  savvy_new_engine___ffi : Host → Nat → Nat → Nat × Host
  savvy_print_config___ffi : Host → Nat → Nat × Host
  savvy_print_engine___ffi : Host → Nat → Nat × Host

/-- Source: `SEXP savvy_alphabet___impl(SEXP c_arg__which)` -/
def savvy_alphabet___impl (w : Nat) (N : Native) (R : Host)
    (c_arg__which : Nat) : Outcome × Host :=
  let res := N.savvy_alphabet___ffi R c_arg__which
  (handle_result w res.2 res.1, res.2)

/-- Source: `SEXP savvy_b64_chunk__impl(SEXP c_arg__encoded, SEXP c_arg__width)` -/
def savvy_b64_chunk__impl (w : Nat) (N : Native) (R : Host)
    (c_arg__encoded c_arg__width : Nat) : Outcome × Host :=
  let res := N.savvy_b64_chunk__ffi R c_arg__encoded c_arg__width
  (handle_result w res.2 res.1, res.2)

/-- Source: `SEXP savvy_b64_wrap__impl(SEXP c_arg__chunks, SEXP c_arg__newline)` -/
def savvy_b64_wrap__impl (w : Nat) (N : Native) (R : Host)
    (c_arg__chunks c_arg__newline : Nat) : Outcome × Host :=
  let res := N.savvy_b64_wrap__ffi R c_arg__chunks c_arg__newline
  (handle_result w res.2 res.1, res.2)

/-- Source: `SEXP savvy_decode___impl(SEXP c_arg__input, SEXP c_arg__engine)` -/
def savvy_decode___impl (w : Nat) (N : Native) (R : Host)
    (c_arg__input c_arg__engine : Nat) : Outcome × Host :=
  let res := N.savvy_decode___ffi R c_arg__input c_arg__engine
  (handle_result w res.2 res.1, res.2)

/-- Source: `SEXP savvy_decode_as_string___impl(SEXP c_arg__what, SEXP c_arg__engine, SEXP c_arg__split)` -/
def savvy_decode_as_string___impl (w : Nat) (N : Native) (R : Host)
    (c_arg__what c_arg__engine c_arg__split : Nat) : Outcome × Host :=
  let res := N.savvy_decode_as_string___ffi R c_arg__what c_arg__engine c_arg__split
  (handle_result w res.2 res.1, res.2)

/-- Source: `SEXP savvy_decode_file___impl(SEXP c_arg__path, SEXP c_arg__engine)` -/
def savvy_decode_file___impl (w : Nat) (N : Native) (R : Host)
    (c_arg__path c_arg__engine : Nat) : Outcome × Host :=
  let res := N.savvy_decode_file___ffi R c_arg__path c_arg__engine
  (handle_result w res.2 res.1, res.2)

/-- Source: `SEXP savvy_decode_vectorized___impl(SEXP c_arg__what, SEXP c_arg__engine)` -/
def savvy_decode_vectorized___impl (w : Nat) (N : Native) (R : Host)
    (c_arg__what c_arg__engine : Nat) : Outcome × Host :=
  let res := N.savvy_decode_vectorized___ffi R c_arg__what c_arg__engine
  (handle_result w res.2 res.1, res.2)

/-- Source: `SEXP savvy_encode___impl(SEXP c_arg__what, SEXP c_arg__engine)` -/
def savvy_encode___impl (w : Nat) (N : Native) (R : Host)
    (c_arg__what c_arg__engine : Nat) : Outcome × Host :=
  let res := N.savvy_encode___ffi R c_arg__what c_arg__engine
  (handle_result w res.2 res.1, res.2)

/-- Source: `SEXP savvy_encode_file___impl(SEXP c_arg__path, SEXP c_arg__engine)` -/
def savvy_encode_file___impl (w : Nat) (N : Native) (R : Host)
    (c_arg__path c_arg__engine : Nat) : Outcome × Host :=
  let res := N.savvy_encode_file___ffi R c_arg__path c_arg__engine
  (handle_result w res.2 res.1, res.2)

/-- Source: `SEXP savvy_encode_vectorized___impl(SEXP c_arg__what, SEXP c_arg__engine)` -/
def savvy_encode_vectorized___impl (w : Nat) (N : Native) (R : Host)
    (c_arg__what c_arg__engine : Nat) : Outcome × Host :=
  let res := N.savvy_encode_vectorized___ffi R c_arg__what c_arg__engine
  (handle_result w res.2 res.1, res.2)

/-- Source: `SEXP savvy_engine___impl(SEXP c_arg__which)` -/
def savvy_engine___impl (w : Nat) (N : Native) (R : Host)
    (c_arg__which : Nat) : Outcome × Host :=
  let res := N.savvy_engine___ffi R c_arg__which
  (handle_result w res.2 res.1, res.2)

/-- Source: `SEXP savvy_get_alphabet___impl(SEXP c_arg__alphabet)` -/
def savvy_get_alphabet___impl (w : Nat) (N : Native) (R : Host)
    (c_arg__alphabet : Nat) : Outcome × Host :=
  let res := N.savvy_get_alphabet___ffi R c_arg__alphabet
  (handle_result w res.2 res.1, res.2)

/-- Source: `SEXP savvy_new_alphabet___impl(SEXP c_arg__chars)` -/
def savvy_new_alphabet___impl (w : Nat) (N : Native) (R : Host)
    (c_arg__chars : Nat) : Outcome × Host :=
  let res := N.savvy_new_alphabet___ffi R c_arg__chars
  (handle_result w res.2 res.1, res.2)

/-- Source: `SEXP savvy_new_config___impl(SEXP c_arg__encode_padding, SEXP c_arg__decode_padding_trailing_bits, SEXP c_arg__decode_padding_mode)` -/
def savvy_new_config___impl (w : Nat) (N : Native) (R : Host)
    (c_arg__encode_padding c_arg__decode_padding_trailing_bits c_arg__decode_padding_mode : Nat) : Outcome × Host :=
  let res := N.savvy_new_config___ffi R c_arg__encode_padding c_arg__decode_padding_trailing_bits c_arg__decode_padding_mode
  (handle_result w res.2 res.1, res.2)

/-- Source: `SEXP savvy_new_engine___impl(SEXP c_arg__alphabet, SEXP c_arg__config)` -/
def savvy_new_engine___impl (w : Nat) (N : Native) (R : Host)
    (c_arg__alphabet c_arg__config : Nat) : Outcome × Host :=
  let res := N.savvy_new_engine___ffi R c_arg__alphabet c_arg__config
  (handle_result w res.2 res.1, res.2)

/-- Source: `SEXP savvy_print_config___impl(SEXP c_arg__config)` -/
def savvy_print_config___impl (w : Nat) (N : Native) (R : Host)
    (c_arg__config : Nat) : Outcome × Host :=
  let res := N.savvy_print_config___ffi R c_arg__config
  (handle_result w res.2 res.1, res.2)

/-- Source: `SEXP savvy_print_engine___impl(SEXP c_arg__engine)` -/
def savvy_print_engine___impl (w : Nat) (N : Native) (R : Host)
    (c_arg__engine : Nat) : Outcome × Host :=
  let res := N.savvy_print_engine___ffi R c_arg__engine
  (handle_result w res.2 res.1, res.2)

/-! ## The registration table -/

/-- The functions of the file whose address a table entry can hold
(`(DL_FUNC) &savvy_..._impl`). -/
inductive DL_FUNC where
  | savvy_alphabet___impl
  | savvy_b64_chunk__impl
  | savvy_b64_wrap__impl
  | savvy_decode___impl
  | savvy_decode_as_string___impl
  | savvy_decode_file___impl
  | savvy_decode_vectorized___impl
  | savvy_encode___impl
  | savvy_encode_file___impl
  | savvy_encode_vectorized___impl
  | savvy_engine___impl
  | savvy_get_alphabet___impl
  | savvy_new_alphabet___impl
  | savvy_new_config___impl
  | savvy_new_engine___impl
  | savvy_print_config___impl
  | savvy_print_engine___impl
  deriving DecidableEq, Repr

/-- The identifier of the function a pointer addresses, as its definition
writes it. -/
def DL_FUNC.ident : DL_FUNC → String
  | .savvy_alphabet___impl => "savvy_alphabet___impl"
  | .savvy_b64_chunk__impl => "savvy_b64_chunk__impl"
  | .savvy_b64_wrap__impl => "savvy_b64_wrap__impl"
  | .savvy_decode___impl => "savvy_decode___impl"
  | .savvy_decode_as_string___impl => "savvy_decode_as_string___impl"
  | .savvy_decode_file___impl => "savvy_decode_file___impl"
  | .savvy_decode_vectorized___impl => "savvy_decode_vectorized___impl"
  | .savvy_encode___impl => "savvy_encode___impl"
  | .savvy_encode_file___impl => "savvy_encode_file___impl"
  | .savvy_encode_vectorized___impl => "savvy_encode_vectorized___impl"
  | .savvy_engine___impl => "savvy_engine___impl"
  | .savvy_get_alphabet___impl => "savvy_get_alphabet___impl"
  | .savvy_new_alphabet___impl => "savvy_new_alphabet___impl"
  | .savvy_new_config___impl => "savvy_new_config___impl"
  | .savvy_new_engine___impl => "savvy_new_engine___impl"
  | .savvy_print_config___impl => "savvy_print_config___impl"
  | .savvy_print_engine___impl => "savvy_print_engine___impl"

/-- The number of parameters in the definition of the function a pointer
addresses. -/
def DL_FUNC.params : DL_FUNC → Nat
  | .savvy_alphabet___impl => 1
  | .savvy_b64_chunk__impl => 2
  | .savvy_b64_wrap__impl => 2
  | .savvy_decode___impl => 2
  | .savvy_decode_as_string___impl => 3
  | .savvy_decode_file___impl => 2
  | .savvy_decode_vectorized___impl => 2
  | .savvy_encode___impl => 2
  | .savvy_encode_file___impl => 2
  | .savvy_encode_vectorized___impl => 2
  | .savvy_engine___impl => 1
  | .savvy_get_alphabet___impl => 1
  | .savvy_new_alphabet___impl => 1
  | .savvy_new_config___impl => 3
  | .savvy_new_engine___impl => 2
  | .savvy_print_config___impl => 1
  | .savvy_print_engine___impl => 1

/-- Calling through a function pointer with a list of arguments: defined when
the list has as many arguments as the function has parameters. -/
def DL_FUNC.call (w : Nat) (N : Native) (R : Host) :
    DL_FUNC → List Nat → Option (Outcome × Host)
  | .savvy_alphabet___impl, [a] =>
      some (B64.savvy_alphabet___impl w N R a)
  | .savvy_b64_chunk__impl, [a, b] =>
      some (B64.savvy_b64_chunk__impl w N R a b)
  | .savvy_b64_wrap__impl, [a, b] =>
      some (B64.savvy_b64_wrap__impl w N R a b)
  | .savvy_decode___impl, [a, b] =>
      some (B64.savvy_decode___impl w N R a b)
  | .savvy_decode_as_string___impl, [a, b, c] =>
      some (B64.savvy_decode_as_string___impl w N R a b c)
  | .savvy_decode_file___impl, [a, b] =>
      some (B64.savvy_decode_file___impl w N R a b)
  | .savvy_decode_vectorized___impl, [a, b] =>
      some (B64.savvy_decode_vectorized___impl w N R a b)
  | .savvy_encode___impl, [a, b] =>
      some (B64.savvy_encode___impl w N R a b)
  | .savvy_encode_file___impl, [a, b] =>
      some (B64.savvy_encode_file___impl w N R a b)
  | .savvy_encode_vectorized___impl, [a, b] =>
      some (B64.savvy_encode_vectorized___impl w N R a b)
  | .savvy_engine___impl, [a] =>
      some (B64.savvy_engine___impl w N R a)
  | .savvy_get_alphabet___impl, [a] =>
      some (B64.savvy_get_alphabet___impl w N R a)
  | .savvy_new_alphabet___impl, [a] =>
      some (B64.savvy_new_alphabet___impl w N R a)
  | .savvy_new_config___impl, [a, b, c] =>
      some (B64.savvy_new_config___impl w N R a b c)
  | .savvy_new_engine___impl, [a, b] =>
      some (B64.savvy_new_engine___impl w N R a b)
  | .savvy_print_config___impl, [a] =>
      some (B64.savvy_print_config___impl w N R a)
  | .savvy_print_engine___impl, [a] =>
      some (B64.savvy_print_engine___impl w N R a)
  | _, _ => none

/-- The native function a wrapper is named after, called with a list of
arguments. -/
def DL_FUNC.native (N : Native) (R : Host) :
    DL_FUNC → List Nat → Option (Nat × Host)
  | .savvy_alphabet___impl, [a] =>
      some (N.savvy_alphabet___ffi R a)
  | .savvy_b64_chunk__impl, [a, b] =>
      some (N.savvy_b64_chunk__ffi R a b)
  | .savvy_b64_wrap__impl, [a, b] =>
      some (N.savvy_b64_wrap__ffi R a b)
  | .savvy_decode___impl, [a, b] =>
      some (N.savvy_decode___ffi R a b)
  | .savvy_decode_as_string___impl, [a, b, c] =>
      some (N.savvy_decode_as_string___ffi R a b c)
  | .savvy_decode_file___impl, [a, b] =>
      some (N.savvy_decode_file___ffi R a b)
  | .savvy_decode_vectorized___impl, [a, b] =>
      some (N.savvy_decode_vectorized___ffi R a b)
  | .savvy_encode___impl, [a, b] =>
      some (N.savvy_encode___ffi R a b)
  | .savvy_encode_file___impl, [a, b] =>
      some (N.savvy_encode_file___ffi R a b)
  | .savvy_encode_vectorized___impl, [a, b] =>
      some (N.savvy_encode_vectorized___ffi R a b)
  | .savvy_engine___impl, [a] =>
      some (N.savvy_engine___ffi R a)
  | .savvy_get_alphabet___impl, [a] =>
      some (N.savvy_get_alphabet___ffi R a)
  | .savvy_new_alphabet___impl, [a] =>
      some (N.savvy_new_alphabet___ffi R a)
  | .savvy_new_config___impl, [a, b, c] =>
      some (N.savvy_new_config___ffi R a b c)
  | .savvy_new_engine___impl, [a, b] =>
      some (N.savvy_new_engine___ffi R a b)
  | .savvy_print_config___impl, [a] =>
      some (N.savvy_print_config___ffi R a)
  | .savvy_print_engine___impl, [a] =>
      some (N.savvy_print_engine___ffi R a)
  | _, _ => none

/-- The host's `R_CallMethodDef`: a name, a function pointer and an argument
count; `NULL` is `none`. -/
structure R_CallMethodDef where
  name : Option String
  func : Option DL_FUNC
  numArgs : Nat
  deriving DecidableEq, Repr

/-- Source: `static const R_CallMethodDef CallEntries[]` -/
def CallEntries : List R_CallMethodDef :=
  [
    ⟨some "savvy_alphabet___impl", some .savvy_alphabet___impl, 1⟩,
    ⟨some "savvy_b64_chunk__impl", some .savvy_b64_chunk__impl, 2⟩,
    ⟨some "savvy_b64_wrap__impl", some .savvy_b64_wrap__impl, 2⟩,
    ⟨some "savvy_decode___impl", some .savvy_decode___impl, 2⟩,
    ⟨some "savvy_decode_as_string___impl", some .savvy_decode_as_string___impl, 3⟩,
    ⟨some "savvy_decode_file___impl", some .savvy_decode_file___impl, 2⟩,
    ⟨some "savvy_decode_vectorized___impl", some .savvy_decode_vectorized___impl, 2⟩,
    ⟨some "savvy_encode___impl", some .savvy_encode___impl, 2⟩,
    ⟨some "savvy_encode_file___impl", some .savvy_encode_file___impl, 2⟩,
    ⟨some "savvy_encode_vectorized___impl", some .savvy_encode_vectorized___impl, 2⟩,
    ⟨some "savvy_engine___impl", some .savvy_engine___impl, 1⟩,
    ⟨some "savvy_get_alphabet___impl", some .savvy_get_alphabet___impl, 1⟩,
    ⟨some "savvy_new_alphabet___impl", some .savvy_new_alphabet___impl, 1⟩,
    ⟨some "savvy_new_config___impl", some .savvy_new_config___impl, 3⟩,
    ⟨some "savvy_new_engine___impl", some .savvy_new_engine___impl, 2⟩,
    ⟨some "savvy_print_config___impl", some .savvy_print_config___impl, 1⟩,
    ⟨some "savvy_print_engine___impl", some .savvy_print_engine___impl, 1⟩,
    ⟨none, none, 0⟩
  ]

/-- The host's record of a loaded library, as far as `R_init_b64` sets it: the
registered `.Call` routines and whether dynamic lookup stays allowed. -/
structure DllInfo where
  CallRoutines : List R_CallMethodDef
  useDynamicSymbols : Bool
  deriving DecidableEq, Repr

/-- The host's `R_registerRoutines`, for the `.Call` table it is given: it
reads the entries up to the first whose name is `NULL`. -/
def R_registerRoutines (dll : DllInfo) (callRoutines : List R_CallMethodDef) :
    DllInfo :=
  { dll with CallRoutines := callRoutines.takeWhile (fun e => e.name.isSome) }

/-- The host's `R_useDynamicSymbols`. -/
def R_useDynamicSymbols (dll : DllInfo) (value : Bool) : DllInfo :=
  { dll with useDynamicSymbols := value }

/-- Source: `void R_init_b64(DllInfo *dll)` -/
def R_init_b64 (dll : DllInfo) : DllInfo :=
  R_useDynamicSymbols (R_registerRoutines dll CallEntries) false

/-! ## The interface table of the specification -/

/-- The table "Operations exposed to the host runtime" of the specification,
one row per operation: its name and the arguments the table lists for it.  A
row that names two operations separated by a slash is two rows here. -/
def specOperations : List (String × List String) :=
  [ ("alphabet", ["name"]),
    ("new_alphabet", ["64-char string"]),
    ("get_alphabet", ["Alphabet"]),
    ("engine", ["name"]),
    ("new_engine", ["Alphabet", "Config"]),
    ("new_config", ["bool", "enum", "enum"]),
    ("print_engine", ["Engine"]),
    ("print_config", ["Config"]),
    ("encode", ["bytes", "Engine"]),
    ("decode", ["text", "Engine"]),
    ("decode_as_string", ["text", "Engine", "optional split"]),
    ("encode_vectorized", ["sequence", "Engine"]),
    ("decode_vectorized", ["sequence", "Engine"]),
    ("encode_file", ["path", "Engine"]),
    ("decode_file", ["path", "Engine"]),
    ("b64_chunk", ["text", "width"]),
    ("b64_wrap", ["sequence of strings", "newline"]) ]

/-- The registered names that stand for an operation of the specification:
the native function is named after the operation, with or without a closing
underscore, and its wrapper is `savvy_` + that name + `__impl`. -/
def registeredNames (op : String) : List String :=
  ["savvy_" ++ op ++ "__impl", "savvy_" ++ op ++ "_" ++ "__impl"]

/-- The entries of the registration table that stand for an operation. -/
def entriesFor (op : String) : List R_CallMethodDef :=
  CallEntries.filter (fun e => e.name.any (fun n => n ∈ registeredNames op))


/-! ## The codec, from the specification

The encoder and decoder live in the native library; `init.c` only forwards to
them.  They are modelled here from the specification's sections 3 and 4, with
bytes as natural numbers below 256. -/

/-- Modelled from the spec: the Alphabet of section 3, "a 64-character mapping
plus padding character"; the native library that holds it is not among the
sources.  `symbols` lists the symbol bytes in index order. -/
structure Alphabet where
  symbols : List Nat
  padding : Nat
  deriving DecidableEq, Repr

/-- Modelled from the spec: the invariants of an Alphabet, "exactly 64 symbol
bytes; all distinct; none equal to the padding byte; each byte ≤ 0x7F"; the
padding byte is a byte. -/
def Alphabet.Valid (A : Alphabet) : Prop :=
  A.symbols.length = 64 ∧ A.symbols.Nodup ∧ A.padding ∉ A.symbols ∧
    (∀ s ∈ A.symbols, s ≤ 0x7F) ∧ A.padding < 256

instance (A : Alphabet) : Decidable A.Valid := by
  unfold Alphabet.Valid
  infer_instance

/-- Modelled from the spec: the policy `decode_padding_trailing_bits` of a
Config, "one of reject, ignore". -/
inductive TrailingBits where
  | reject
  | ignore
  deriving DecidableEq, Repr

/-- Modelled from the spec: the policy `decode_padding_mode` of a Config, "one
of indifferent, canonical, requireNone, requireCanonical". -/
inductive PaddingMode where
  | indifferent
  | canonical
  | requireNone
  | requireCanonical
  deriving DecidableEq, Repr

/-- Modelled from the spec: the Config of section 3, with its three fields;
"all combinations are valid". -/
structure Config where
  encode_padding : Bool
  decode_padding_trailing_bits : TrailingBits
  decode_padding_mode : PaddingMode
  deriving DecidableEq, Repr

/-- Modelled from the spec: an entry of the decode lookup table, "byte → 6-bit
value or invalid", the padding byte apart. -/
inductive Slot where
  | value (v : Nat)
  | pad
  | invalid
  deriving DecidableEq, Repr

/-- Modelled from the spec: the Engine of section 3, "one Alphabet, one Config,
and a precomputed decode lookup table". -/
structure Engine where
  alphabet : Alphabet
  config : Config
  table : List Slot
  deriving DecidableEq, Repr

/-- Modelled from the spec: the 256-entry decode table "derived from the
Alphabet; positions not in the Alphabet (except the padding byte) map to
invalid". -/
def decodeTable (A : Alphabet) : List Slot :=
  (List.range 256).map fun b =>
    if b ∈ A.symbols then Slot.value (A.symbols.indexOf b)
    else if b = A.padding then Slot.pad
    else Slot.invalid

/-- Modelled from the spec: `new_engine(Alphabet, Config)` of section 4.3, which
constructs an Engine from the pair and computes its table. -/
def new_engine (A : Alphabet) (C : Config) : Engine :=
  ⟨A, C, decodeTable A⟩

/-- Modelled from the spec: the index groups of the encode primitive.  "Each
group of 3 input bytes is packed big-endian into 24 bits and split into 4 6-bit
indices into the Alphabet.  A final group of 1 or 2 bytes is zero-extended to
produce 2 or 3 indices respectively". -/
def encodeIndices : List Nat → List Nat
  | a :: b :: c :: rest =>
      let n := a * 65536 + b * 256 + c
      n / 262144 % 64 :: n / 4096 % 64 :: n / 64 % 64 :: n % 64 :: encodeIndices rest
  | [a, b] =>
      let n := a * 65536 + b * 256
      [n / 262144 % 64, n / 4096 % 64, n / 64 % 64]
  | [a] =>
      let n := a * 65536
      [n / 262144 % 64, n / 4096 % 64]
  | [] => []

/-- Modelled from the spec: the encode primitive of section 4.3.  The indices
are mapped through the Alphabet and, "when padding is enabled, the remaining 1
or 2 positions are emitted as the padding byte", which rounds the length up to
a multiple of 4. -/
def Engine.encode (E : Engine) (input : List Nat) : List Nat :=
  let symbols := (encodeIndices input).map (fun i => E.alphabet.symbols.getD i 0)
  if E.config.encode_padding then
    symbols ++ List.replicate ((4 - symbols.length % 4) % 4) E.alphabet.padding
  else
    symbols

/-- Modelled from the spec: the decode failures of section 7 that the decode
primitive raises. -/
inductive DecodeError where
  | InvalidByte (position byte : Nat)
  | InvalidLength (length : Nat)
  | InvalidLastSymbol (position byte : Nat)
  | InvalidPadding (observed expected : Nat) (mode : PaddingMode)
  deriving DecidableEq, Repr

instance : DecidableEq (Except DecodeError (List Nat)) := fun x y =>
  match x, y with
  | .ok a, .ok b =>
      if h : a = b then isTrue (by rw [h]) else isFalse (fun h2 => h (Except.ok.inj h2))
  | .error a, .error b =>
      if h : a = b then isTrue (by rw [h]) else isFalse (fun h2 => h (Except.error.inj h2))
  | .ok _, .error _ => isFalse (fun h => Except.noConfusion h)
  | .error _, .ok _ => isFalse (fun h => Except.noConfusion h)

/-- Modelled from the spec: the padding count P of a text, the number of padding
bytes that close it ("after stripping padding, let M be the count of data
bytes"). -/
def paddingCount (pad : Nat) (text : List Nat) : Nat :=
  (text.reverse.takeWhile (fun b => b == pad)).length

/-- Modelled from the spec: the table lookup of the decode primitive.  "Each
non-padding byte is looked up in the 256-entry decode table: invalid → fail
with InvalidByte{position, byte}; a valid 6-bit value → accumulate"; a padding
byte that is not part of the closing padding fails the same way (scenario 5
of section 8). -/
def lookupAll (table : List Slot) : Nat → List Nat → Except DecodeError (List Nat)
  | _, [] => .ok []
  | position, b :: rest =>
      match table.getD b Slot.invalid with
      | .value v =>
          match lookupAll table (position + 1) rest with
          | .ok vs => .ok (v :: vs)
          | .error e => .error e
      | _ => .error (.InvalidByte position b)

/-- Modelled from the spec: the bytes of the groups of 6-bit values.  A full
group of 4 values gives 3 bytes; the output length is "3·⌊M/4⌋ + {0,1,2} for
M mod 4 ∈ {0,2,3}". -/
def decodeGroups : List Nat → List Nat
  | a :: b :: c :: d :: rest =>
      let n := a * 262144 + b * 4096 + c * 64 + d
      n / 65536 % 256 :: n / 256 % 256 :: n % 256 :: decodeGroups rest
  | [a, b, c] =>
      let n := a * 262144 + b * 4096 + c * 64
      [n / 65536 % 256, n / 256 % 256]
  | [a, b] =>
      let n := a * 262144 + b * 4096
      [n / 65536 % 256]
  | _ => []

/-- Modelled from the spec: "in the final partial group, the unused low bits of
the last accumulated 6-bit symbol": 4 bits after 2 values, 2 bits after 3. -/
def trailingBits : List Nat → Nat
  | _ :: _ :: _ :: _ :: rest => trailingBits rest
  | [_, _, c] => c % 4
  | [_, b] => b % 16
  | _ => 0

/-- Modelled from the spec: the padding rule of each mode, for an observed
count P and the expected canonical count.  "indifferent: any P ∈ {0, expected}
accepted; canonical: P must equal expected; requireNone: P must be 0;
requireCanonical: P must equal expected". -/
def paddingAccepted : PaddingMode → Nat → Nat → Bool
  | .indifferent, P, expected => P = 0 ∨ P = expected
  | .canonical, P, expected => P = expected
  | .requireNone, P, _ => P = 0
  | .requireCanonical, P, expected => P = expected

/-- Modelled from the spec: the decode primitive of section 4.3.  The closing
padding is stripped and counted, the M data bytes are looked up, M mod 4 = 1
is `InvalidLength`, non-zero trailing bits under `reject` are
`InvalidLastSymbol`, and the padding count is checked against
"(4 − M mod 4) mod 4" by the rule of the mode. -/
def Engine.decode (E : Engine) (text : List Nat) : Except DecodeError (List Nat) :=
  let P := paddingCount E.alphabet.padding text
  let data := text.take (text.length - P)
  let M := data.length
  let expected := (4 - M % 4) % 4
  match lookupAll E.table 0 data with
  | .error e => .error e
  | .ok values =>
      if M % 4 = 1 then
        .error (.InvalidLength M)
      else if E.config.decode_padding_trailing_bits = .reject ∧ trailingBits values ≠ 0 then
        .error (.InvalidLastSymbol (M - 1) (data.getLastD 0))
      else if paddingAccepted E.config.decode_padding_mode P expected then
        .ok (decodeGroups values)
      else
        .error (.InvalidPadding P expected E.config.decode_padding_mode)

/-- Modelled from the spec: the exposed operation `encode(bytes, engine)` of
section 4.4, which "returns the encoded text" and never fails. -/
def encode (bytes : List Nat) (engine : Engine) : List Nat :=
  engine.encode bytes

/-- Modelled from the spec: the exposed operation `decode(text, engine)` of
section 4.4, which "fails per §4.3". -/
def decode (text : List Nat) (engine : Engine) : Except DecodeError (List Nat) :=
  engine.decode text

/-- Modelled from the spec: the padding count the encoder emits for an input of
n bytes under a Config: the canonical count when `encode_padding` is set, none
otherwise. -/
def emittedPadding (C : Config) (n : Nat) : Nat :=
  if C.encode_padding then (3 - n % 3) % 3 else 0

/-- Modelled from the spec: the preset alphabet `standard` (RFC 4648 §4), with
the padding byte `=`. -/
def standardAlphabet : Alphabet :=
  ⟨[
    65, 66, 67, 68, 69, 70, 71, 72, 73, 74, 75, 76, 77, 78, 79, 80,
    81, 82, 83, 84, 85, 86, 87, 88, 89, 90, 97, 98, 99, 100, 101, 102,
    103, 104, 105, 106, 107, 108, 109, 110, 111, 112, 113, 114, 115, 116, 117, 118,
    119, 120, 121, 122, 48, 49, 50, 51, 52, 53, 54, 55, 56, 57, 43, 47 ], 61⟩

/-! ## Concrete values for the examples -/

/-- A host state with one character object, at address 4096, holding the text
`100% invalid`; every other address holds an object of another type. -/
def exampleHost : Host where
  TYPEOF := fun p => if p = 4096 then 9 else 13
  CHAR := fun p => if p = 4096 then "100% invalid" else ""
  R_NilValue := 512
  CHARSXP := 9

/-- A native library whose `decode` fails with the message at address 4096 and
whose other functions succeed, giving back their first argument. -/
def exampleNative : Native where
  savvy_alphabet___ffi := fun R a => (a, R)
  savvy_b64_chunk__ffi := fun R a _ => (a, R)
  savvy_b64_wrap__ffi := fun R a _ => (a, R)
  savvy_decode___ffi := fun R _ _ => (4097, R)
  savvy_decode_as_string___ffi := fun R a _ _ => (a, R)
  savvy_decode_file___ffi := fun R a _ => (a, R)
  savvy_decode_vectorized___ffi := fun R a _ => (a, R)
  savvy_encode___ffi := fun R a _ => (a, R)
  savvy_encode_file___ffi := fun R a _ => (a, R)
  savvy_encode_vectorized___ffi := fun R a _ => (a, R)
  savvy_engine___ffi := fun R a => (a, R)
  savvy_get_alphabet___ffi := fun R a => (a, R)
  savvy_new_alphabet___ffi := fun R a => (a, R)
  savvy_new_config___ffi := fun R a _ _ => (a, R)
  savvy_new_engine___ffi := fun R a _ => (a, R)
  savvy_print_config___ffi := fun R a => (a, R)
  savvy_print_engine___ffi := fun R a => (a, R)

/-- What it is for a wrapper to propagate its native function's result: the
wrapper's outcome is `handle_result` of the native result, in the host state the
native call left; it returns exactly when the native result is untagged, and
then it returns the native result itself. -/
def Propagates (w : Nat) (wrapper : Outcome × Host) (native : Nat × Host) : Prop :=
  wrapper = (handle_result w native.2 native.1, native.2) ∧
  ((∃ v, wrapper.1 = Outcome.returned v) ↔ native.1 % 2 = 0) ∧
  (native.1 % 2 = 1 →
    (∃ call format args, wrapper.1 = Outcome.errorcall call format args) ∨
      ∃ token, wrapper.1 = Outcome.continueUnwind token) ∧
  (native.1 % 2 = 0 → wrapper.1 = Outcome.returned native.1)

/-! # Theorems -/

/-! ## Words and the tag bit -/

theorem mask_of_pos {w : Nat} (hw : 0 < w) : TAGGED_POINTER_MASK w = 1 := by
  unfold TAGGED_POINTER_MASK
  exact Nat.mod_eq_of_lt (Nat.one_lt_two_pow (by omega))

theorem land_mask {w : Nat} (hw : 0 < w) (r : Nat) :
    Nat.land r (TAGGED_POINTER_MASK w) = r % 2 := by
  rw [mask_of_pos hw]
  exact Nat.and_one_is_mod r

theorem testBit_complement_mask {w : Nat} (hw : 0 < w) (i : Nat) :
    (complement w (TAGGED_POINTER_MASK w)).testBit i = (decide (i < w) && decide (i ≠ 0)) := by
  rw [mask_of_pos hw]
  unfold complement
  have h1 : 1 % 2 ^ w = 1 := Nat.mod_eq_of_lt (Nat.one_lt_two_pow (by omega))
  rw [h1]
  have : 2 ^ w - 1 - 1 = 2 ^ w - (1 + 1) := by omega
  rw [this, Nat.testBit_two_pow_sub_succ (Nat.one_lt_two_pow (by omega))]
  cases i with
  | zero => simp
  | succ n => simp [Nat.testBit_succ]

theorem testBit_res_aligned {w : Nat} (hw : 0 < w) (r i : Nat) :
    (res_aligned w r).testBit i = (r.testBit i && (decide (i < w) && decide (i ≠ 0))) := by
  unfold res_aligned
  show (r &&& complement w (TAGGED_POINTER_MASK w)).testBit i = _
  rw [Nat.testBit_and, testBit_complement_mask hw]

theorem res_aligned_eq {w r : Nat} (hr : r < 2 ^ w) (hodd : r % 2 = 1) :
    res_aligned w r = r - 1 := by
  have hw : 0 < w := by
    rcases Nat.eq_zero_or_pos w with h | h
    · subst h; simp at hr; omega
    · exact h
  apply Nat.eq_of_testBit_eq
  intro i
  rw [testBit_res_aligned hw]
  cases i with
  | zero =>
    simp [Nat.testBit_zero]
    omega
  | succ n =>
    have h2 : r = 2 * (r / 2) + 1 := by omega
    have h3 : r - 1 = 2 * (r / 2) := by omega
    rw [h3, Nat.testBit_succ, Nat.testBit_succ]
    have : 2 * (r / 2) / 2 = r / 2 := by omega
    rw [this]
    by_cases hlt : n + 1 < w
    · simp [hlt]
    · simp [hlt]
      have : r < 2 ^ (n + 1) := lt_of_lt_of_le hr (Nat.pow_le_pow_right (by omega) (by omega))
      have := Nat.testBit_lt_two_pow this
      rw [Nat.testBit_succ] at this
      exact this
theorem tagged_iff {w r : Nat} (hr : r < 2 ^ w) :
    Nat.land r (TAGGED_POINTER_MASK w) = 1 ↔ r % 2 = 1 := by
  rcases Nat.eq_zero_or_pos w with h | h
  · subst h
    have : r = 0 := by simpa using hr
    subst this
    decide
  · rw [land_mask h]

/-! ## The result convention -/

theorem handle_result_untagged (w : Nat) (R : Host) (r : Nat) (h : r % 2 = 0) :
    handle_result w R r = Outcome.returned r := by
  have hne : Nat.land r (TAGGED_POINTER_MASK w) ≠ 1 := by
    rcases Nat.eq_zero_or_pos w with hw | hw
    · subst hw
      have : TAGGED_POINTER_MASK 0 = 0 := by decide
      rw [this]
      show r &&& 0 ≠ 1
      simp
    · rw [land_mask hw]; omega
  unfold handle_result
  simp only [if_neg hne]

theorem handle_result_tagged (w : Nat) (R : Host) (r : Nat) (hr : r < 2 ^ w)
    (h : r % 2 = 1) :
    handle_result w R r =
      if R.TYPEOF (r - 1) = R.CHARSXP then
        Outcome.errorcall R.R_NilValue "%s" [R.CHAR (r - 1)]
      else
        Outcome.continueUnwind (r - 1) := by
  unfold handle_result
  simp only [if_pos ((tagged_iff hr).2 h), res_aligned_eq hr h]

theorem message_percent_s (call : Nat) (s : String) :
    (Outcome.errorcall call "%s" [s]).message = some s := by
  show some (String.mk (renderFormat ['%', 's'] [s])) = some s
  simp [renderFormat]

/-- C1: for every w-bit result word r, `handle_result` reaches its `return`
exactly when the low bit of r is clear; when the low bit is set it returns no
value, and ends in the error raise or in the unwind continuation. -/
theorem handle_result_returns_iff_low_bit_clear (w : Nat) (R : Host) (r : Nat)
    (hr : r < 2 ^ w) :
    ((∃ v, handle_result w R r = Outcome.returned v) ↔ r % 2 = 0) ∧
    (r % 2 = 1 →
      (∀ v, handle_result w R r ≠ Outcome.returned v) ∧
      ((∃ call format args, handle_result w R r = Outcome.errorcall call format args) ∨
        ∃ token, handle_result w R r = Outcome.continueUnwind token)) := by
  have key : r % 2 = 1 →
      (∀ v, handle_result w R r ≠ Outcome.returned v) ∧
      ((∃ call format args, handle_result w R r = Outcome.errorcall call format args) ∨
        ∃ token, handle_result w R r = Outcome.continueUnwind token) := by
    intro h
    rw [handle_result_tagged w R r hr h]
    by_cases ht : R.TYPEOF (r - 1) = R.CHARSXP
    · rw [if_pos ht]
      exact ⟨fun v hv => (by cases hv), Or.inl ⟨_, _, _, rfl⟩⟩
    · rw [if_neg ht]
      exact ⟨fun v hv => (by cases hv), Or.inr ⟨_, rfl⟩⟩
  refine ⟨⟨?_, ?_⟩, key⟩
  · rintro ⟨v, hv⟩
    by_contra hodd
    exact (key (by omega)).1 v hv
  · intro h
    exact ⟨r, handle_result_untagged w R r h⟩

/-- Witness of C1: the 64-bit words 4097 (tagged) in the example host. -/
theorem handle_result_returns_iff_low_bit_clear_witness :
    4097 < 2 ^ 64 ∧
    (((∃ v, handle_result 64 exampleHost 4097 = Outcome.returned v) ↔ 4097 % 2 = 0) ∧
    (4097 % 2 = 1 →
      (∀ v, handle_result 64 exampleHost 4097 ≠ Outcome.returned v) ∧
      ((∃ call format args,
          handle_result 64 exampleHost 4097 = Outcome.errorcall call format args) ∨
        ∃ token, handle_result 64 exampleHost 4097 = Outcome.continueUnwind token))) :=
  ⟨by decide, handle_result_returns_iff_low_bit_clear 64 exampleHost 4097 (by decide)⟩

/-- C2: for every result value r whose low bit is clear, `handle_result`
returns r itself, unchanged. -/
theorem handle_result_passes_success_through (w : Nat) (R : Host) (r : Nat)
    (h : r % 2 = 0) :
    handle_result w R r = Outcome.returned r :=
  handle_result_untagged w R r h

/-- Witness of C2: the word 8192 on a 64-bit host. -/
theorem handle_result_passes_success_through_witness :
    8192 % 2 = 0 ∧ handle_result 64 exampleHost 8192 = Outcome.returned 8192 :=
  ⟨by decide, handle_result_passes_success_through 64 exampleHost 8192 (by decide)⟩

/-- C3: for every w-bit result word r whose low bit is set, with p = r - 1 the
word without its tag: when the object at p is a CHARSXP, `handle_result` calls
`Rf_errorcall(R_NilValue, "%s", CHAR(p))`, whose message is the content of the
string as it is; otherwise it calls `R_ContinueUnwind(p)`.  Which of the two
happens is decided by the type of the object at p alone. -/
theorem handle_result_failure_paths (w : Nat) (R : Host) (r : Nat) (hr : r < 2 ^ w)
    (h : r % 2 = 1) :
    (R.TYPEOF (r - 1) = R.CHARSXP →
      handle_result w R r = Outcome.errorcall R.R_NilValue "%s" [R.CHAR (r - 1)] ∧
      (handle_result w R r).message = some (R.CHAR (r - 1))) ∧
    (R.TYPEOF (r - 1) ≠ R.CHARSXP →
      handle_result w R r = Outcome.continueUnwind (r - 1)) ∧
    ((∃ call format args, handle_result w R r = Outcome.errorcall call format args) ↔
      R.TYPEOF (r - 1) = R.CHARSXP) ∧
    ((∃ token, handle_result w R r = Outcome.continueUnwind token) ↔
      R.TYPEOF (r - 1) ≠ R.CHARSXP) := by
  rw [handle_result_tagged w R r hr h]
  by_cases ht : R.TYPEOF (r - 1) = R.CHARSXP
  · rw [if_pos ht]
    refine ⟨fun _ => ⟨rfl, message_percent_s _ _⟩, fun hn => absurd ht hn, ?_, ?_⟩
    · exact ⟨fun _ => ht, fun _ => ⟨_, _, _, rfl⟩⟩
    · exact ⟨fun ⟨_, e⟩ => (by cases e), fun hn => absurd ht hn⟩
  · rw [if_neg ht]
    refine ⟨fun hn => absurd hn ht, fun _ => rfl, ?_, ?_⟩
    · exact ⟨fun ⟨_, _, _, e⟩ => (by cases e), fun hn => absurd hn ht⟩
    · exact ⟨fun _ => ht, fun _ => ⟨_, rfl⟩⟩

/-- Witness of C3: the tagged word 4097, whose object holds a text with a
percent sign. -/
theorem handle_result_failure_paths_witness :
    (4097 < 2 ^ 64 ∧ 4097 % 2 = 1) ∧
    (handle_result 64 exampleHost 4097).message = some "100% invalid" :=
  ⟨⟨by decide, by decide⟩,
    ((handle_result_failure_paths 64 exampleHost 4097 (by decide) (by decide)).1
      (by decide)).2⟩

theorem lor_one_of_even (p : Nat) (h : p % 2 = 0) : p ||| 1 = p + 1 := by
  apply Nat.eq_of_testBit_eq
  intro i
  rw [Nat.testBit_or]
  cases i with
  | zero =>
    simp [Nat.testBit_zero]
    omega
  | succ n =>
    rw [Nat.testBit_succ, Nat.testBit_succ, Nat.testBit_succ]
    have h1 : (p + 1) / 2 = p / 2 := by omega
    have h2 : 1 / 2 = 0 := by decide
    rw [h1, h2]
    simp

theorem succ_lt_two_pow_of_even {w p : Nat} (hw : 0 < w) (hp : p < 2 ^ w)
    (h : p % 2 = 0) : p + 1 < 2 ^ w := by
  obtain ⟨k, rfl⟩ : ∃ k, w = k + 1 := ⟨w - 1, by omega⟩
  rw [Nat.pow_succ] at hp ⊢
  omega

/-- C7: for every w-bit word r with its low bit set, the pointer that
`handle_result` inspects and forwards on the failure path is r AND NOT 1 taken
on the whole word (the mask is 1 and its complement 2^w - 2); it equals r - 1,
is a w-bit word with its low bit clear, and has the bits of r everywhere
else. -/
theorem tag_removal_bit_exact (w : Nat) (R : Host) (r : Nat) (hr : r < 2 ^ w)
    (h : r % 2 = 1) :
    TAGGED_POINTER_MASK w = 1 ∧
    complement w (TAGGED_POINTER_MASK w) = 2 ^ w - 2 ∧
    res_aligned w r = r &&& (2 ^ w - 2) ∧
    res_aligned w r = r - 1 ∧
    res_aligned w r < 2 ^ w ∧
    res_aligned w r % 2 = 0 ∧
    (res_aligned w r).testBit 0 = false ∧
    (∀ i, 0 < i → (res_aligned w r).testBit i = r.testBit i) ∧
    handle_result w R r =
      (if R.TYPEOF (res_aligned w r) = R.CHARSXP then
        Outcome.errorcall R.R_NilValue "%s" [R.CHAR (res_aligned w r)]
      else
        Outcome.continueUnwind (res_aligned w r)) := by
  have hw : 0 < w := by
    rcases Nat.eq_zero_or_pos w with h0 | h0
    · subst h0
      simp at hr
      omega
    · exact h0
  have hmask := mask_of_pos hw
  have hcomp : complement w (TAGGED_POINTER_MASK w) = 2 ^ w - 2 := by
    rw [hmask]
    unfold complement
    rw [Nat.mod_eq_of_lt (Nat.one_lt_two_pow (by omega))]
    omega
  have heq := res_aligned_eq hr h
  refine ⟨hmask, hcomp, ?_, heq, ?_, ?_, ?_, ?_, ?_⟩
  · unfold res_aligned
    rw [hcomp]
    rfl
  · omega
  · omega
  · rw [heq, Nat.testBit_zero]
    simp
    omega
  · intro i hi
    rw [testBit_res_aligned hw]
    by_cases hlt : i < w
    · have hne : i ≠ 0 := by omega
      simp [hlt, hne]
    · have hlt2 : r < 2 ^ i := lt_of_lt_of_le hr (Nat.pow_le_pow_right (by omega) (by omega))
      rw [Nat.testBit_lt_two_pow hlt2]
      simp
  · rw [heq]
    exact handle_result_tagged w R r hr h

/-- Witness of C7: the tagged 64-bit word 4097. -/
theorem tag_removal_bit_exact_witness :
    (4097 < 2 ^ 64 ∧ 4097 % 2 = 1) ∧ res_aligned 64 4097 = 4097 - 1 :=
  ⟨⟨by decide, by decide⟩,
    (tag_removal_bit_exact 64 exampleHost 4097 (by decide) (by decide)).2.2.2.1⟩

/-- C9: on a host with pointers of positive width w, for every even w-bit word
p, `handle_result` of p OR 1 takes the failure path and dispatches on p itself:
it reads the type of the object at p and calls `Rf_errorcall` with the text at
p or `R_ContinueUnwind` with p; it does not return. -/
theorem handle_result_of_tagged_pointer (w : Nat) (R : Host) (p : Nat) (hw : 0 < w)
    (hp : p < 2 ^ w) (h : p % 2 = 0) :
    p ||| 1 < 2 ^ w ∧
    res_aligned w (p ||| 1) = p ∧
    handle_result w R (p ||| 1) =
      (if R.TYPEOF p = R.CHARSXP then
        Outcome.errorcall R.R_NilValue "%s" [R.CHAR p]
      else
        Outcome.continueUnwind p) ∧
    (∀ v, handle_result w R (p ||| 1) ≠ Outcome.returned v) := by
  have hor := lor_one_of_even p h
  have hlt := succ_lt_two_pow_of_even hw hp h
  have hodd : (p + 1) % 2 = 1 := by omega
  have hres : handle_result w R (p + 1) =
      (if R.TYPEOF p = R.CHARSXP then
        Outcome.errorcall R.R_NilValue "%s" [R.CHAR p]
      else
        Outcome.continueUnwind p) := by
    have := handle_result_tagged w R (p + 1) hlt hodd
    simpa using this
  rw [hor]
  refine ⟨hlt, ?_, hres, ?_⟩
  · rw [res_aligned_eq hlt hodd]
    omega
  · intro v hv
    rw [hres] at hv
    split at hv <;> cases hv

/-- Witness of C9: the aligned word 4096 on a 64-bit host. -/
theorem handle_result_of_tagged_pointer_witness :
    (0 < 64 ∧ 4096 < 2 ^ 64 ∧ 4096 % 2 = 0) ∧
    handle_result 64 exampleHost (4096 ||| 1) =
      (if exampleHost.TYPEOF 4096 = exampleHost.CHARSXP then
        Outcome.errorcall exampleHost.R_NilValue "%s" [exampleHost.CHAR 4096]
      else
        Outcome.continueUnwind 4096) :=
  ⟨⟨by decide, by decide, by decide⟩,
    (handle_result_of_tagged_pointer 64 exampleHost 4096 (by decide) (by decide)
      (by decide)).2.2.1⟩

/-- C10: for every result value r on which `handle_result` returns, the value
it returns is r, and `handle_result` of that value returns it again, in any
host state. -/
theorem handle_result_idempotent (w : Nat) (R R2 : Host) (r v : Nat)
    (h : handle_result w R r = Outcome.returned v) :
    v = r ∧ handle_result w R2 v = Outcome.returned v ∧
      handle_result w R2 v = handle_result w R r := by
  unfold handle_result at h
  by_cases hc : Nat.land r (TAGGED_POINTER_MASK w) = 1
  · simp only [if_pos hc] at h
    split at h <;> cases h
  · simp only [if_neg hc] at h
    cases h
    have : handle_result w R2 r = Outcome.returned r := by
      unfold handle_result
      simp only [if_neg hc]
    refine ⟨rfl, this, ?_⟩
    rw [this]
    unfold handle_result
    simp only [if_neg hc]

/-- Witness of C10: the success value 8192 on a 64-bit host. -/
theorem handle_result_idempotent_witness :
    handle_result 64 exampleHost 8192 = Outcome.returned 8192 ∧
    (8192 = 8192 ∧ handle_result 64 exampleHost 8192 = Outcome.returned 8192 ∧
      handle_result 64 exampleHost 8192 = handle_result 64 exampleHost 8192) :=
  ⟨by decide,
    handle_result_idempotent 64 exampleHost exampleHost 8192 8192 (by decide)⟩

/-! ## The wrappers and the registration table -/

theorem handle_result_propagates (w : Nat) (hw : 0 < w) (native : Nat × Host) :
    Propagates w (handle_result w native.2 native.1, native.2) native := by
  obtain ⟨r, R⟩ := native
  have hcond : Nat.land r (TAGGED_POINTER_MASK w) = 1 ↔ r % 2 = 1 := by
    rw [land_mask hw]
  refine ⟨rfl, ⟨?_, ?_⟩, ?_, ?_⟩
  · rintro ⟨v, hv⟩
    by_contra hodd
    have h1 : r % 2 = 1 := by omega
    simp only [handle_result, if_pos (hcond.2 h1)] at hv
    split at hv <;> cases hv
  · intro h
    exact ⟨r, handle_result_untagged w R r h⟩
  · intro h1
    simp only [handle_result, if_pos (hcond.2 h1)]
    by_cases ht : R.TYPEOF (res_aligned w r) = R.CHARSXP
    · rw [if_pos ht]; exact Or.inl ⟨_, _, _, rfl⟩
    · rw [if_neg ht]; exact Or.inr ⟨_, rfl⟩
  · intro h
    exact handle_result_untagged w R r h

/-- C4: each of the 17 wrappers `savvy_*_impl` gives, for all arguments, the
outcome of `handle_result` on the result of the native function of the same
name called with the same arguments in the same order; so it raises exactly
when the native result is tagged and otherwise returns the native result
unchanged. -/
theorem wrappers_propagate_native_result (w : Nat) (N : Native) (R : Host)
    (a b c : Nat) (hw : 0 < w) :
    Propagates w (savvy_alphabet___impl w N R a) (N.savvy_alphabet___ffi R a) ∧
    Propagates w (savvy_b64_chunk__impl w N R a b) (N.savvy_b64_chunk__ffi R a b) ∧
    Propagates w (savvy_b64_wrap__impl w N R a b) (N.savvy_b64_wrap__ffi R a b) ∧
    Propagates w (savvy_decode___impl w N R a b) (N.savvy_decode___ffi R a b) ∧
    Propagates w (savvy_decode_as_string___impl w N R a b c)
      (N.savvy_decode_as_string___ffi R a b c) ∧
    Propagates w (savvy_decode_file___impl w N R a b) (N.savvy_decode_file___ffi R a b) ∧
    Propagates w (savvy_decode_vectorized___impl w N R a b)
      (N.savvy_decode_vectorized___ffi R a b) ∧
    Propagates w (savvy_encode___impl w N R a b) (N.savvy_encode___ffi R a b) ∧
    Propagates w (savvy_encode_file___impl w N R a b) (N.savvy_encode_file___ffi R a b) ∧
    Propagates w (savvy_encode_vectorized___impl w N R a b)
      (N.savvy_encode_vectorized___ffi R a b) ∧
    Propagates w (savvy_engine___impl w N R a) (N.savvy_engine___ffi R a) ∧
    Propagates w (savvy_get_alphabet___impl w N R a) (N.savvy_get_alphabet___ffi R a) ∧
    Propagates w (savvy_new_alphabet___impl w N R a) (N.savvy_new_alphabet___ffi R a) ∧
    Propagates w (savvy_new_config___impl w N R a b c) (N.savvy_new_config___ffi R a b c) ∧
    Propagates w (savvy_new_engine___impl w N R a b) (N.savvy_new_engine___ffi R a b) ∧
    Propagates w (savvy_print_config___impl w N R a) (N.savvy_print_config___ffi R a) ∧
    Propagates w (savvy_print_engine___impl w N R a) (N.savvy_print_engine___ffi R a) :=
  ⟨handle_result_propagates w hw _, handle_result_propagates w hw _,
    handle_result_propagates w hw _, handle_result_propagates w hw _,
    handle_result_propagates w hw _, handle_result_propagates w hw _,
    handle_result_propagates w hw _, handle_result_propagates w hw _,
    handle_result_propagates w hw _, handle_result_propagates w hw _,
    handle_result_propagates w hw _, handle_result_propagates w hw _,
    handle_result_propagates w hw _, handle_result_propagates w hw _,
    handle_result_propagates w hw _, handle_result_propagates w hw _,
    handle_result_propagates w hw _⟩

/-- Witness of C4: on a 64-bit host, the `decode` wrapper over a native `decode`
that fails with a tagged message, and the `encode` wrapper over one that
succeeds. -/
theorem wrappers_propagate_native_result_witness :
    0 < 64 ∧
    Propagates 64 (savvy_decode___impl 64 exampleNative exampleHost 8192 12288)
      (exampleNative.savvy_decode___ffi exampleHost 8192 12288) ∧
    Propagates 64 (savvy_encode___impl 64 exampleNative exampleHost 8192 12288)
      (exampleNative.savvy_encode___ffi exampleHost 8192 12288) :=
  ⟨by decide,
    (wrappers_propagate_native_result 64 exampleNative exampleHost 8192 12288 0
      (by decide)).2.2.2.1,
    (wrappers_propagate_native_result 64 exampleNative exampleHost 8192 12288 0
      (by decide)).2.2.2.2.2.2.2.1⟩

/-- C5: the 17 operations of the specification's interface table each have
exactly one entry in `CallEntries`, every entry of the table before its closing
`NULL` entry stands for one of them, and each entry's argument count is the
number of arguments the specification lists for its operation: 1 for alphabet,
new_alphabet, get_alphabet, engine, print_engine and print_config, 3 for
new_config and decode_as_string, 2 for the others. -/
theorem call_entries_match_spec_operations :
    specOperations.map (fun op => (op.1, op.2.length)) =
      [("alphabet", 1), ("new_alphabet", 1), ("get_alphabet", 1), ("engine", 1),
        ("new_engine", 2), ("new_config", 3), ("print_engine", 1), ("print_config", 1),
        ("encode", 2), ("decode", 2), ("decode_as_string", 3), ("encode_vectorized", 2),
        ("decode_vectorized", 2), ("encode_file", 2), ("decode_file", 2),
        ("b64_chunk", 2), ("b64_wrap", 2)] ∧
    (specOperations.map Prod.fst).Nodup ∧
    (∀ op ∈ specOperations, (entriesFor op.1).length = 1) ∧
    (∀ op ∈ specOperations, ∀ e ∈ entriesFor op.1, e.numArgs = op.2.length) ∧
    (∀ e ∈ CallEntries, e.name.isSome → ∃ op ∈ specOperations, e ∈ entriesFor op.1) ∧
    (CallEntries.filter (fun e => e.name.isSome)).length = specOperations.length := by
  refine ⟨by decide, by decide, by decide, by decide, by decide, by decide⟩

theorem call_defined_iff (w : Nat) (N : Native) (R : Host) (f : DL_FUNC)
    (args : List Nat) : (f.call w N R args).isSome ↔ args.length = f.params := by
  cases f <;>
    rcases args with _ | ⟨a, _ | ⟨b, _ | ⟨c, _ | ⟨d, rest⟩⟩⟩⟩ <;>
    simp [DL_FUNC.call, DL_FUNC.params]

/-- C8: the registration table agrees with the wrapper definitions.  Every
entry before the closing one points to a wrapper, is named by that wrapper's
identifier and counts that wrapper's parameters (the number of arguments its
call takes); the registered names are pairwise distinct; every wrapper of the
file is registered; and the table ends with one `{NULL, NULL, 0}` entry, the
only one with a `NULL` name, so that `R_init_b64` registers the 17 entries
before it. -/
theorem call_entries_consistent_with_wrappers :
    (∀ e ∈ CallEntries.dropLast,
      e.func.isSome ∧ e.name = e.func.map DL_FUNC.ident ∧
        some e.numArgs = e.func.map DL_FUNC.params) ∧
    (∀ (w : Nat) (N : Native) (R : Host) (f : DL_FUNC) (args : List Nat),
      (f.call w N R args).isSome ↔ args.length = f.params) ∧
    (CallEntries.dropLast.map (fun e => e.name)).Nodup ∧
    (∀ f : DL_FUNC, ∃ e ∈ CallEntries.dropLast, e.func = some f) ∧
    CallEntries.getLast? = some ⟨none, none, 0⟩ ∧
    (CallEntries.filter (fun e => e.name.isNone)).length = 1 ∧
    (∀ dll : DllInfo, (R_init_b64 dll).CallRoutines = CallEntries.dropLast ∧
      (R_init_b64 dll).CallRoutines.length = 17 ∧
      (R_init_b64 dll).useDynamicSymbols = false) := by
  refine ⟨by decide, call_defined_iff, by decide, ?_, by decide, by decide, ?_⟩
  · intro f
    cases f <;> decide
  · intro dll
    refine ⟨?_, ?_, rfl⟩
    · show CallEntries.takeWhile (fun e => e.name.isSome) = CallEntries.dropLast
      decide
    · show (CallEntries.takeWhile (fun e => e.name.isSome)).length = 17
      decide

/-! ## The round trip of the codec -/

theorem encodeIndices_lt (b : List Nat) : ∀ i ∈ encodeIndices b, i < 64 := by
  induction b using encodeIndices.induct with
  | case1 a b c rest ih =>
    intro i hi
    simp only [encodeIndices, List.mem_cons] at hi
    rcases hi with h | h | h | h | h
    · omega
    · omega
    · omega
    · omega
    · exact ih i h
  | case2 a b =>
    intro i hi
    simp only [encodeIndices, List.mem_cons, List.mem_singleton] at hi
    rcases hi with h | h | h | h
    · omega
    · omega
    · omega
    · simp at h
  | case3 a =>
    intro i hi
    simp only [encodeIndices, List.mem_cons, List.mem_singleton] at hi
    rcases hi with h | h | h
    · omega
    · omega
    · simp at h
  | case4 => simp [encodeIndices]

theorem encodeIndices_length (b : List Nat) :
    (encodeIndices b).length % 4 ≠ 1 ∧
      (4 - (encodeIndices b).length % 4) % 4 = (3 - b.length % 3) % 3 := by
  induction b using encodeIndices.induct with
  | case1 a b c rest ih =>
    simp only [encodeIndices, List.length_cons]
    omega
  | case2 a b => simp [encodeIndices]
  | case3 a => simp [encodeIndices]
  | case4 => simp [encodeIndices]

theorem trailingBits_encodeIndices (b : List Nat) (hb : ∀ x ∈ b, x < 256) :
    trailingBits (encodeIndices b) = 0 := by
  induction b using encodeIndices.induct with
  | case1 a b c rest ih =>
    simp only [encodeIndices, trailingBits]
    exact ih (fun x hx => hb x (by simp [hx]))
  | case2 a b =>
    simp only [encodeIndices, trailingBits]
    omega
  | case3 a =>
    simp only [encodeIndices, trailingBits]
    omega
  | case4 => simp [encodeIndices, trailingBits]

theorem decodeGroups_encodeIndices (b : List Nat) (hb : ∀ x ∈ b, x < 256) :
    decodeGroups (encodeIndices b) = b := by
  induction b using encodeIndices.induct with
  | case1 a b c rest ih =>
    have ha : a < 256 := hb a (by simp)
    have hb2 : b < 256 := hb b (by simp)
    have hc : c < 256 := hb c (by simp)
    simp only [encodeIndices, decodeGroups]
    rw [ih (fun x hx => hb x (by simp [hx]))]
    congr 1
    · omega
    · congr 1
      · omega
      · congr 1
        omega
  | case2 a b =>
    have ha : a < 256 := hb a (by simp)
    have hb2 : b < 256 := hb b (by simp)
    simp only [encodeIndices, decodeGroups]
    congr 1
    · omega
    · congr 1
      omega
  | case3 a =>
    have ha : a < 256 := hb a (by simp)
    simp only [encodeIndices, decodeGroups]
    congr 1
    omega
  | case4 => simp [encodeIndices, decodeGroups]

theorem table_symbol (A : Alphabet) (hA : A.Valid) (i : Nat) (hi : i < 64) :
    (decodeTable A).getD (A.symbols.getD i 0) Slot.invalid = Slot.value i := by
  obtain ⟨hlen, hnd, _, hascii, _⟩ := hA
  have hil : i < A.symbols.length := by omega
  rw [List.getD_eq_getElem A.symbols 0 hil]
  have hmem : A.symbols[i] ∈ A.symbols := List.getElem_mem hil
  have hlt : A.symbols[i] < 256 := by
    have := hascii _ hmem
    omega
  unfold decodeTable
  rw [List.getD_eq_getElem _ _ (by simpa using hlt)]
  simp only [List.getElem_map, List.getElem_range, hmem, if_true]
  rw [List.indexOf_getElem hnd i hil]

theorem lookupAll_symbols (A : Alphabet) (hA : A.Valid) (idx : List Nat)
    (hidx : ∀ i ∈ idx, i < 64) (position : Nat) :
    lookupAll (decodeTable A) position (idx.map (fun i => A.symbols.getD i 0)) = .ok idx := by
  induction idx generalizing position with
  | nil => simp [lookupAll]
  | cons i rest ih =>
    simp only [List.map_cons, lookupAll]
    rw [table_symbol A hA i (hidx i (by simp))]
    simp only
    rw [ih (fun j hj => hidx j (by simp [hj]))]

theorem paddingCount_append (pad : Nat) (syms : List Nat) (k : Nat) (h : pad ∉ syms) :
    paddingCount pad (syms ++ List.replicate k pad) = k := by
  unfold paddingCount
  rw [List.reverse_append, List.reverse_replicate]
  have h1 : ∀ a ∈ List.replicate k pad, (fun b => b == pad) a = true := by
    intro a ha
    simp [List.eq_of_mem_replicate ha]
  rw [List.takeWhile_append_of_pos h1]
  have h2 : List.takeWhile (fun b => b == pad) syms.reverse = [] := by
    cases hs : syms.reverse with
    | nil => rfl
    | cons x xs =>
      have hx : x ∈ syms := by
        have : x ∈ syms.reverse := by rw [hs]; simp
        simpa using this
      have hne : x ≠ pad := fun e => h (e ▸ hx)
      have hf : (x == pad) = false := by simp [hne]
      rw [List.takeWhile_cons, hf]
      simp
  rw [h2]
  simp

theorem symbols_no_padding (A : Alphabet) (hA : A.Valid) (idx : List Nat)
    (hidx : ∀ i ∈ idx, i < 64) :
    A.padding ∉ idx.map (fun i => A.symbols.getD i 0) := by
  obtain ⟨hlen, _, hpad, _, _⟩ := hA
  intro hmem
  rw [List.mem_map] at hmem
  obtain ⟨i, hi, he⟩ := hmem
  have hil : i < A.symbols.length := by have := hidx i hi; omega
  rw [List.getD_eq_getElem A.symbols 0 hil] at he
  exact hpad (he ▸ List.getElem_mem hil)

/-- The result of decoding what the encoder produced, for every Config. -/
theorem decode_encode_eq (A : Alphabet) (C : Config) (b : List Nat) (hA : A.Valid)
    (hb : ∀ x ∈ b, x < 256) :
    decode (encode b (new_engine A C)) (new_engine A C) =
      if paddingAccepted C.decode_padding_mode (emittedPadding C b.length)
          ((3 - b.length % 3) % 3) then
        .ok b
      else
        .error (.InvalidPadding (emittedPadding C b.length) ((3 - b.length % 3) % 3)
          C.decode_padding_mode) := by
  have hidx := encodeIndices_lt b
  have hnp := symbols_no_padding A hA (encodeIndices b) hidx
  obtain ⟨hlen1, hlen2⟩ := encodeIndices_length b
  set syms := (encodeIndices b).map (fun i => A.symbols.getD i 0) with hsyms
  have hsl : syms.length = (encodeIndices b).length := by simp [hsyms]
  have henc : encode b (new_engine A C) =
      syms ++ List.replicate (emittedPadding C b.length) A.padding := by
    unfold encode Engine.encode emittedPadding new_engine
    simp only
    split
    · rw [← hsyms, hsl, hlen2]
    · rw [← hsyms]
      simp
  have hP : paddingCount A.padding (encode b (new_engine A C)) = emittedPadding C b.length := by
    rw [henc]; exact paddingCount_append _ _ _ hnp
  have hdata : (encode b (new_engine A C)).take
      ((encode b (new_engine A C)).length - emittedPadding C b.length) = syms := by
    rw [henc]
    simp
  unfold decode Engine.decode
  simp only [new_engine]
  simp only [new_engine] at hP hdata
  rw [hP, hdata, hsyms, lookupAll_symbols A hA _ hidx 0]
  simp only [List.length_map]
  rw [if_neg hlen1, trailingBits_encodeIndices b hb, hlen2, decodeGroups_encodeIndices b hb]
  simp

/-- C6, as stated, fails: with the standard alphabet, `encode_padding` set and
the decode padding mode `requireNone`, the encoder gives `Zg==` for the one
byte `f`, and the decoder of the same Engine rejects it. -/
theorem roundtrip_fails_when_padding_modes_disagree :
    standardAlphabet.Valid ∧ (∀ x ∈ [102], x < 256) ∧
    encode [102] (new_engine standardAlphabet ⟨true, .reject, .requireNone⟩) =
      [90, 103, 61, 61] ∧
    decode (encode [102] (new_engine standardAlphabet ⟨true, .reject, .requireNone⟩))
        (new_engine standardAlphabet ⟨true, .reject, .requireNone⟩) =
      .error (.InvalidPadding 2 2 .requireNone) := by
  decide

/-- C6, amended: for every byte buffer b and every Engine made of a valid
Alphabet and a Config, decoding the encoding of b with the same Engine
succeeds and returns b exactly when the decoder's padding mode accepts the
padding the encoder emits: the length of b is a multiple of 3, or the mode is
`indifferent`, or `encode_padding` is set and the mode is `canonical` or
`requireCanonical`, or `encode_padding` is unset and the mode is
`requireNone`. -/
theorem decode_encode_roundtrip (A : Alphabet) (C : Config) (b : List Nat)
    (hA : A.Valid) (hb : ∀ x ∈ b, x < 256) :
    decode (encode b (new_engine A C)) (new_engine A C) = .ok b ↔
      (b.length % 3 = 0 ∨ C.decode_padding_mode = .indifferent ∨
        (C.encode_padding = true ∧
          (C.decode_padding_mode = .canonical ∨
            C.decode_padding_mode = .requireCanonical)) ∨
        (C.encode_padding = false ∧ C.decode_padding_mode = .requireNone)) := by
  rw [decode_encode_eq A C b hA hb]
  obtain ⟨ep, tb, mode⟩ := C
  have h3 : b.length % 3 = 0 ∨ b.length % 3 = 1 ∨ b.length % 3 = 2 := by omega
  cases ep <;> cases mode <;> rcases h3 with h | h | h <;>
    simp [paddingAccepted, emittedPadding, h]

/-- Witness of C6, amended: the bytes `fo` under the standard alphabet with
padding on both sides. -/
theorem decode_encode_roundtrip_witness :
    (standardAlphabet.Valid ∧ ∀ x ∈ [102, 111], x < 256) ∧
    decode (encode [102, 111] (new_engine standardAlphabet ⟨true, .reject, .canonical⟩))
        (new_engine standardAlphabet ⟨true, .reject, .canonical⟩) = .ok [102, 111] :=
  ⟨⟨by decide, by decide⟩,
    (decode_encode_roundtrip standardAlphabet ⟨true, .reject, .canonical⟩ [102, 111]
      (by decide) (by decide)).2 (by decide)⟩

end B64
